import Mathlib

/-!
Shallow embedding of the IntSar-3D frame-update and transform pipeline
(`src/math.rs`, `src/scene.rs`, `src/renderer.rs`).

Machine `f32` arithmetic is modelled over `ℚ`.  The transcendental
operations (`sin`, `cos`, `tan`, `sqrt`) and the constant `π` that the
`glam` library evaluates on `f32` are passed in as an explicit dictionary
`TrigOps`, so every definition stays computable while the exact
matrix-composition structure of the code is preserved.  The bodies of the
`glam` constructors used by the repository (`Mat4::from_rotation_x/y/z`,
`Mat4::look_at_rh`, `Mat4::perspective_rh_gl`,
`Mat4::from_scale_rotation_translation`, `Quat::IDENTITY`, vector
arithmetic) are transcribed from the `glam` sources, since the repository
calls them directly.
-/

namespace IntSar3D

/-- glam `Vec3` over `ℚ`. -/
structure Vec3 where
  x : ℚ
  y : ℚ
  z : ℚ
deriving DecidableEq

/-- glam `Vec3::ZERO`. -/
def Vec3.zero : Vec3 := ⟨0, 0, 0⟩

/-- glam `Vec3::ONE`. -/
def Vec3.one : Vec3 := ⟨1, 1, 1⟩

/-- glam `Vec3::Y`. -/
def Vec3.unitY : Vec3 := ⟨0, 1, 0⟩

/-- glam `Vec3::sub` (componentwise subtraction). -/
def Vec3.sub (a b : Vec3) : Vec3 := ⟨a.x - b.x, a.y - b.y, a.z - b.z⟩

/-- glam `Vec3::dot`. -/
def Vec3.dot (a b : Vec3) : ℚ := a.x * b.x + a.y * b.y + a.z * b.z

/-- glam `Vec3::cross`. -/
def Vec3.cross (a b : Vec3) : Vec3 :=
  ⟨a.y * b.z - b.y * a.z, a.z * b.x - b.z * a.x, a.x * b.y - b.x * a.y⟩

/-- glam `Quat` over `ℚ` (fields `x y z w`). -/
structure Quat where
  x : ℚ
  y : ℚ
  z : ℚ
  w : ℚ
deriving DecidableEq

/-- glam `Quat::IDENTITY`. -/
def Quat.IDENTITY : Quat := ⟨0, 0, 0, 1⟩

/-- glam `Vec4` over `ℚ`. -/
structure Vec4 where
  x : ℚ
  y : ℚ
  z : ℚ
  w : ℚ
deriving DecidableEq

/-- Componentwise addition of `Vec4`. -/
def Vec4.add (a b : Vec4) : Vec4 := ⟨a.x + b.x, a.y + b.y, a.z + b.z, a.w + b.w⟩

/-- Scalar multiple of a `Vec4` (glam `Vec4::mul(f32)`). -/
def Vec4.smul (a : Vec4) (k : ℚ) : Vec4 := ⟨a.x * k, a.y * k, a.z * k, a.w * k⟩

/-- Column list of a `Vec4`, used by `Mat4::to_cols_array_2d`. -/
def Vec4.toList (v : Vec4) : List ℚ := [v.x, v.y, v.z, v.w]

/-- glam `Mat4` over `ℚ`: four columns, as in the `glam` column-major layout. -/
structure Mat4 where
  x_axis : Vec4
  y_axis : Vec4
  z_axis : Vec4
  w_axis : Vec4
deriving DecidableEq

/-- glam `Mat4::IDENTITY`. -/
def Mat4.identity : Mat4 := ⟨⟨1, 0, 0, 0⟩, ⟨0, 1, 0, 0⟩, ⟨0, 0, 1, 0⟩, ⟨0, 0, 0, 1⟩⟩

/-- glam `Mat4::mul_vec4`: linear combination of the columns. -/
def Mat4.mulVec4 (m : Mat4) (v : Vec4) : Vec4 :=
  (((m.x_axis.smul v.x).add (m.y_axis.smul v.y)).add (m.z_axis.smul v.z)).add
    (m.w_axis.smul v.w)

/-- glam `Mat4::mul_mat4` (the `*` operator on matrices in the renderer). -/
def Mat4.mul (a b : Mat4) : Mat4 :=
  ⟨a.mulVec4 b.x_axis, a.mulVec4 b.y_axis, a.mulVec4 b.z_axis, a.mulVec4 b.w_axis⟩

/-- glam `Mat4::to_cols_array_2d`: the column-major 4×4 array written into the
uniform buffer. -/
def Mat4.to_cols_array_2d (m : Mat4) : List (List ℚ) :=
  [m.x_axis.toList, m.y_axis.toList, m.z_axis.toList, m.w_axis.toList]

/-- glam internal `Mat4::quat_to_axes`: the three rotation columns derived
from a quaternion. -/
def Mat4.quat_to_axes (rotation : Quat) : Vec4 × Vec4 × Vec4 :=
  let x := rotation.x
  let y := rotation.y
  let z := rotation.z
  let w := rotation.w
  let x2 := x + x
  let y2 := y + y
  let z2 := z + z
  let xx := x * x2
  let xy := x * y2
  let xz := x * z2
  let yy := y * y2
  let yz := y * z2
  let zz := z * z2
  let wx := w * x2
  let wy := w * y2
  let wz := w * z2
  (⟨1 - (yy + zz), xy + wz, xz - wy, 0⟩,
   ⟨xy - wz, 1 - (xx + zz), yz + wx, 0⟩,
   ⟨xz + wy, yz - wx, 1 - (xx + yy), 0⟩)

/-- glam `Mat4::from_quat` (the pure rotation matrix of a quaternion). -/
def Mat4.from_quat (rotation : Quat) : Mat4 :=
  let axes := Mat4.quat_to_axes rotation
  ⟨axes.1, axes.2.1, axes.2.2, ⟨0, 0, 0, 1⟩⟩

/-- glam `Mat4::from_translation`. -/
def Mat4.from_translation (translation : Vec3) : Mat4 :=
  ⟨⟨1, 0, 0, 0⟩, ⟨0, 1, 0, 0⟩, ⟨0, 0, 1, 0⟩,
   ⟨translation.x, translation.y, translation.z, 1⟩⟩

/-- glam `Mat4::from_scale` (diagonal scale matrix). -/
def Mat4.from_scale (scale : Vec3) : Mat4 :=
  ⟨⟨scale.x, 0, 0, 0⟩, ⟨0, scale.y, 0, 0⟩, ⟨0, 0, scale.z, 0⟩, ⟨0, 0, 0, 1⟩⟩

/-- glam `Mat4::from_scale_rotation_translation`, the body of
`Transform::matrix` in `src/math.rs` lines 33-39. -/
def Mat4.from_scale_rotation_translation (scale : Vec3) (rotation : Quat)
    (translation : Vec3) : Mat4 :=
  let axes := Mat4.quat_to_axes rotation
  ⟨axes.1.smul scale.x, axes.2.1.smul scale.y, axes.2.2.smul scale.z,
   ⟨translation.x, translation.y, translation.z, 1⟩⟩

/-- Rust `Transform` from `src/math.rs` lines 7-11. -/
structure Transform where
  position : Vec3
  rotation : Quat
  scale : Vec3
deriving DecidableEq

/-- Rust `Transform::new` (`src/math.rs` lines 15-21): stores the components
verbatim, without normalizing the rotation. -/
def Transform.new (position : Vec3) (rotation : Quat) (scale : Vec3) : Transform :=
  ⟨position, rotation, scale⟩

/-- Rust `Transform::identity` (`src/math.rs` lines 24-30). -/
def Transform.identity : Transform :=
  ⟨Vec3.zero, Quat.IDENTITY, Vec3.one⟩

/-- Rust `Transform::matrix` (`src/math.rs` lines 33-39):
`Mat4::from_scale_rotation_translation(self.scale, self.rotation, self.position)`. -/
def Transform.matrix (self : Transform) : Mat4 :=
  Mat4.from_scale_rotation_translation self.scale self.rotation self.position

/-- Rust `SceneObject` from `src/scene.rs` lines 7-11. -/
structure SceneObject where
  name : String
  transform : Transform
deriving DecidableEq

/-- Rust `SceneObject::new` (`src/scene.rs` lines 15-17). -/
def SceneObject.new (name : String) (transform : Transform) : SceneObject :=
  ⟨name, transform⟩

/-- Rust `Scene` from `src/scene.rs` lines 22-24: a `Vec<SceneObject>`. -/
structure Scene where
  objects : List SceneObject
deriving DecidableEq

/-- Rust `Scene::new` (`src/scene.rs` lines 28-32). -/
def Scene.new : Scene := ⟨[]⟩

/-- Rust `Scene::add_object` (`src/scene.rs` lines 35-37): pushes at the end. -/
def Scene.add_object (self : Scene) (object : SceneObject) : Scene :=
  ⟨self.objects ++ [object]⟩

/-- Rust `Scene::get_object` (`src/scene.rs` lines 45-47):
`self.objects.iter().find(|obj| obj.name == name)`. -/
def Scene.get_object (self : Scene) (name : String) : Option SceneObject :=
  self.objects.find? (fun obj => obj.name == name)

/-- Index selected by Rust `Scene::get_object_mut` (`src/scene.rs` lines 40-42):
`iter_mut().find` scans the same list with the same predicate in the same
order, so the mutable borrow it returns is to the element at this index. -/
def Scene.get_object_mut_index (self : Scene) (name : String) : Option ℕ :=
  self.objects.findIdx? (fun obj => obj.name == name)

/-- Overwrite of the transform of the first object matching `name`, modelling
a write through the mutable borrow returned by `Scene::get_object_mut`
(`src/scene.rs` lines 40-42); a no-op when no object matches. -/
def setFirstTransform (name : String) (t : Transform) :
    List SceneObject → List SceneObject
  | [] => []
  | obj :: rest =>
    if obj.name == name then { obj with transform := t } :: rest
    else obj :: setFirstTransform name t rest

/-- Scene-level wrapper for `setFirstTransform`. -/
def Scene.set_transform_via_mut (self : Scene) (name : String) (t : Transform) :
    Scene :=
  ⟨setFirstTransform name t self.objects⟩

/-- Dictionary of the transcendental `f32` operations used through `glam`.
Passing them explicitly keeps every definition computable while the
matrix structure mirrors the `glam` sources exactly. -/
structure TrigOps where
  sin : ℚ → ℚ
  cos : ℚ → ℚ
  tan : ℚ → ℚ
  sqrt : ℚ → ℚ
  pi : ℚ

/-- All-zero `TrigOps` instance, used to evaluate the embedding on concrete
inputs where the transcendental values are irrelevant. -/
def TrigOps.dummy : TrigOps := ⟨fun _ => 0, fun _ => 0, fun _ => 0, fun _ => 0, 0⟩

/-- Rust `f32::to_radians`: `self * (PI / 180.0)`. -/
def to_radians (ops : TrigOps) (deg : ℚ) : ℚ := deg * (ops.pi / 180)

/-- glam `Vec3::normalize`: the vector scaled by the reciprocal of its
length `sqrt(dot self self)`. -/
def Vec3.normalize (ops : TrigOps) (v : Vec3) : Vec3 :=
  let len := ops.sqrt (v.dot v)
  ⟨v.x / len, v.y / len, v.z / len⟩

/-- glam `Mat4::from_rotation_x`. -/
def Mat4.from_rotation_x (ops : TrigOps) (angle : ℚ) : Mat4 :=
  let sina := ops.sin angle
  let cosa := ops.cos angle
  ⟨⟨1, 0, 0, 0⟩, ⟨0, cosa, sina, 0⟩, ⟨0, -sina, cosa, 0⟩, ⟨0, 0, 0, 1⟩⟩

/-- glam `Mat4::from_rotation_y`. -/
def Mat4.from_rotation_y (ops : TrigOps) (angle : ℚ) : Mat4 :=
  let sina := ops.sin angle
  let cosa := ops.cos angle
  ⟨⟨cosa, 0, -sina, 0⟩, ⟨0, 1, 0, 0⟩, ⟨sina, 0, cosa, 0⟩, ⟨0, 0, 0, 1⟩⟩

/-- glam `Mat4::from_rotation_z`. -/
def Mat4.from_rotation_z (ops : TrigOps) (angle : ℚ) : Mat4 :=
  let sina := ops.sin angle
  let cosa := ops.cos angle
  ⟨⟨cosa, sina, 0, 0⟩, ⟨-sina, cosa, 0, 0⟩, ⟨0, 0, 1, 0⟩, ⟨0, 0, 0, 1⟩⟩

/-- glam `Mat4::look_to_rh`. -/
def Mat4.look_to_rh (ops : TrigOps) (eye dir up : Vec3) : Mat4 :=
  let f := Vec3.normalize ops dir
  let s := Vec3.normalize ops (f.cross up)
  let u := s.cross f
  ⟨⟨s.x, u.x, -f.x, 0⟩, ⟨s.y, u.y, -f.y, 0⟩, ⟨s.z, u.z, -f.z, 0⟩,
   ⟨-(eye.dot s), -(eye.dot u), eye.dot f, 1⟩⟩

/-- glam `Mat4::look_at_rh`: `look_to_rh(eye, center - eye, up)`. -/
def Mat4.look_at_rh (ops : TrigOps) (eye center up : Vec3) : Mat4 :=
  Mat4.look_to_rh ops eye (center.sub eye) up

/-- glam `Mat4::perspective_rh_gl`. -/
def Mat4.perspective_rh_gl (ops : TrigOps) (fov_y_radians : ℚ)
    ( aspect_ratio : ℚ) (z_near z_far : ℚ) : Mat4 :=
  let inv_length := 1 / (z_near - z_far)
  let f := 1 / ops.tan (0.5 * fov_y_radians)
  let a := f / aspect_ratio
  let b := (z_near + z_far) * inv_length
  let c := 2 * z_near * z_far * inv_length
  ⟨⟨a, 0, 0, 0⟩, ⟨0, f, 0, 0⟩, ⟨0, 0, b, -1⟩, ⟨0, 0, c, 0⟩⟩

/-- Rust `KeyboardState` from `src/renderer.rs` lines 33-39. The spec names
these flags forward (`w`), left (`a`), back (`s`), right (`d`). -/
structure KeyboardState where
  w : Bool
  a : Bool
  s : Bool
  d : Bool
deriving DecidableEq

/-- Rust `KeyboardState::default()`: all four flags false. -/
def KeyboardState.default : KeyboardState := ⟨false, false, false, false⟩

/-- winit `KeyCode` restricted to the codes `handle_keyboard_input` matches;
`other` stands for every other physical key code. -/
inductive KeyCode
  | keyW
  | keyA
  | keyS
  | keyD
  | other
deriving DecidableEq

/-- winit `PhysicalKey`: either a known key code or an unidentified key. -/
inductive PhysicalKey
  | code (keycode : KeyCode)
  | unidentified
deriving DecidableEq

/-- winit `KeyEvent` restricted to the fields `handle_keyboard_input` reads:
the physical key, and whether `event.state == ElementState::Pressed`. -/
structure KeyEvent where
  physical_key : PhysicalKey
  pressed : Bool
deriving DecidableEq

/-- Mutable state of the Rust `Renderer` (`src/renderer.rs` lines 14-31)
touched by the original per-frame logic: the fixed camera position, the
accumulated rotation angles, and the keyboard flags.  The GPU handles
(device, queue, pipeline, buffers) belong to the external collaborator and
carry no original logic. -/
structure Renderer where
  camera_position : Vec3
  cube_rotation : Vec3
  keys_pressed : KeyboardState
deriving DecidableEq

/-- Initial renderer state from `Renderer::new` (`src/renderer.rs` lines
318-321): camera at `(0,0,3)`, rotation `Vec3::ZERO`, keyboard default. -/
def Renderer.init : Renderer :=
  { camera_position := ⟨0, 0, 3⟩
    cube_rotation := Vec3.zero
    keys_pressed := KeyboardState.default }

/-- Rust `Renderer::handle_keyboard_input` (`src/renderer.rs` lines 381-392). -/
def Renderer.handle_keyboard_input (self : Renderer) (event : KeyEvent) : Renderer :=
  match event.physical_key with
  | .code keycode =>
    let is_pressed := event.pressed
    match keycode with
    | .keyW => { self with keys_pressed := { self.keys_pressed with w := is_pressed } }
    | .keyA => { self with keys_pressed := { self.keys_pressed with a := is_pressed } }
    | .keyS => { self with keys_pressed := { self.keys_pressed with s := is_pressed } }
    | .keyD => { self with keys_pressed := { self.keys_pressed with d := is_pressed } }
    | .other => self
  | .unidentified => self

/-- Rust `rotation_speed` (`src/renderer.rs` line 396):
`2.0 * 0.016`, the comment reading `Assuming ~60 FPS`. -/
def rotation_speed : ℚ := 2.0 * 0.016

/-- Rotation-update phase of `Renderer::update_and_render`
(`src/renderer.rs` lines 394-416): the four keyboard increments followed by
the idle override of `y` with the elapsed wall-clock seconds. -/
def Renderer.update_rotation (rotation : Vec3) (keys : KeyboardState)
    (elapsed : ℚ) : Vec3 :=
  let r1 := if keys.w then { rotation with x := rotation.x - rotation_speed } else rotation
  let r2 := if keys.s then { r1 with x := r1.x + rotation_speed } else r1
  let r3 := if keys.a then { r2 with y := r2.y - rotation_speed } else r2
  let r4 := if keys.d then { r3 with y := r3.y + rotation_speed } else r3
  if !keys.w && !keys.a && !keys.s && !keys.d then { r4 with y := elapsed } else r4

/-- Rust `Uniforms` (`src/renderer.rs` lines 50-54): the column-major 4×4
array uploaded to the uniform buffer. -/
structure Uniforms where
  mvp : List (List ℚ)
deriving DecidableEq

/-- Rust `Uniforms::new` (`src/renderer.rs` lines 57-61). -/
def Uniforms.new : Uniforms := ⟨Mat4.identity.to_cols_array_2d⟩

/-- Rust `Uniforms::update_mvp` (`src/renderer.rs` lines 63-65). -/
def Uniforms.update_mvp (_self : Uniforms) (mvp : Mat4) : Uniforms :=
  ⟨mvp.to_cols_array_2d⟩

/-- Rust `Renderer::update_and_render` (`src/renderer.rs` lines 394-455),
up to the draw submission: consumes the elapsed wall-clock seconds
(`self.start_time.elapsed().as_secs_f32()`) and the current window inner
size, mutates the rotation state, and returns the new state together with
the uniform record written to the GPU queue.  There is no zero-size guard
in this function: the aspect ratio is computed and the update is executed
for any window size. -/
def Renderer.update_and_render (ops : TrigOps) (self : Renderer) (elapsed : ℚ)
    (width height : ℕ) : Renderer × Uniforms :=
  let rot := Renderer.update_rotation self.cube_rotation self.keys_pressed elapsed
  let aspect_ratio : ℚ := (width : ℚ) / (height : ℚ)
  let model := ((Mat4.from_rotation_x ops rot.x).mul
    (Mat4.from_rotation_y ops rot.y)).mul (Mat4.from_rotation_z ops rot.z)
  let view := Mat4.look_at_rh ops self.camera_position Vec3.zero Vec3.unitY
  let projection := Mat4.perspective_rh_gl ops (to_radians ops 45)
    aspect_ratio 0.1 100
  let mvp := (projection.mul view).mul model
  ({ self with cube_rotation := rot }, Uniforms.update_mvp Uniforms.new mvp)

/-- Fields of the wgpu `SurfaceConfiguration` that `Renderer::resize`
computes from its argument; the remaining fields are external-library
constants rebuilt identically on every call. -/
structure SurfaceConfiguration where
  width : ℕ
  height : ℕ
deriving DecidableEq

/-- Rust `Renderer::resize` (`src/renderer.rs` lines 362-379): returns the
surface configuration left in place after the call — unchanged when either
dimension is zero, otherwise reconfigured to the new size. -/
def Renderer.resize (config : SurfaceConfiguration)
    (new_width new_height : ℕ) : SurfaceConfiguration :=
  if new_width = 0 || new_height = 0 then config
  else { width := new_width, height := new_height }

/-- Iterated rotation update: one `update_rotation` per redraw tick, fed the
elapsed-seconds sample of that tick, with the keyboard flags held fixed. -/
def updateN (rotation : Vec3) (keys : KeyboardState) : List ℚ → Vec3
  | [] => rotation
  | e :: es => updateN (Renderer.update_rotation rotation keys e) keys es

/-- Image of the model-space point `(1,0,0)` under the matrix of the
transform with position `(1,2,3)`, rotation quaternion `(0, s, 0, c)`
(a rotation about Y when `s, c` approximate `sin 45°, cos 45°`), and
scale `(2,2,2)`. -/
def trsPoint (s c : ℚ) : Vec4 :=
  ((Transform.new ⟨1, 2, 3⟩ ⟨0, s, 0, c⟩ ⟨2, 2, 2⟩).matrix).mulVec4 ⟨1, 0, 0, 1⟩

/-- First scene object named `A` (identity transform). -/
def objA : SceneObject := SceneObject.new "A" Transform.identity

/-- Scene object named `B`. -/
def objB : SceneObject := SceneObject.new "B" Transform.identity

/-- Second scene object named `A`, with a different transform than the
first, so that which of the two duplicates is returned is observable. -/
def objA2 : SceneObject :=
  SceneObject.new "A" (Transform.new ⟨5, 5, 5⟩ Quat.IDENTITY Vec3.one)

/-- Scene object named `C`. -/
def objC : SceneObject := SceneObject.new "C" Transform.identity

/-- Scene with objects named `A`, `B`, `A` added in that order. -/
def sceneABA : Scene :=
  ((Scene.new.add_object objA).add_object objB).add_object objA2

/-- Scene with objects named `A`, `B`, `C` added in that order. -/
def sceneABC : Scene :=
  ((Scene.new.add_object objA).add_object objB).add_object objC

/-- Replacement transform used to observe a mutation through
`get_object_mut`. -/
def movedTransform : Transform := Transform.new ⟨9, 9, 9⟩ Quat.IDENTITY Vec3.one

/-- Component formula for the `x` angle after one update tick: `w`
subtracts `rotation_speed`, `s` adds it, and nothing else (the idle
override writes only `y`). -/
theorem update_rotation_x_eq (rotation : Vec3) (keys : KeyboardState)
    (elapsed : ℚ) :
    (Renderer.update_rotation rotation keys elapsed).x =
      rotation.x - (if keys.w then rotation_speed else 0)
                 + (if keys.s then rotation_speed else 0) := by
  obtain ⟨w, a, s, d⟩ := keys
  obtain ⟨rx, ry, rz⟩ := rotation
  cases w <;> cases a <;> cases s <;> cases d <;>
    simp [Renderer.update_rotation]

/-- Component formula for the `z` angle after one update tick: no key and
no override ever touches `z`. -/
theorem update_rotation_z_eq (rotation : Vec3) (keys : KeyboardState)
    (elapsed : ℚ) :
    (Renderer.update_rotation rotation keys elapsed).z = rotation.z := by
  obtain ⟨w, a, s, d⟩ := keys
  obtain ⟨rx, ry, rz⟩ := rotation
  cases w <;> cases a <;> cases s <;> cases d <;>
    simp [Renderer.update_rotation]

/-- Component formula for the `y` angle after one update tick in which at
least one key is held: `a` subtracts `rotation_speed`, `d` adds it, and the
idle override does not fire. -/
theorem update_rotation_y_pressed (rotation : Vec3) (keys : KeyboardState)
    (elapsed : ℚ)
    (h : keys.w = true ∨ keys.a = true ∨ keys.s = true ∨ keys.d = true) :
    (Renderer.update_rotation rotation keys elapsed).y =
      rotation.y - (if keys.a then rotation_speed else 0)
                 + (if keys.d then rotation_speed else 0) := by
  obtain ⟨w, a, s, d⟩ := keys
  obtain ⟨rx, ry, rz⟩ := rotation
  cases w <;> cases a <;> cases s <;> cases d <;>
    simp_all [Renderer.update_rotation]

/-- Update tick with all four keys released: the whole tick amounts to
overwriting `y` with the elapsed seconds. -/
theorem update_rotation_idle (rotation : Vec3) (elapsed : ℚ) :
    Renderer.update_rotation rotation KeyboardState.default elapsed =
      { rotation with y := elapsed } := by
  obtain ⟨rx, ry, rz⟩ := rotation
  simp [Renderer.update_rotation, KeyboardState.default]

/-- Iterated idle ticks: the state after any run of all-keys-released ticks
carries the `y` of the final tick's elapsed sample and the original `x`, `z`. -/
theorem updateN_idle (es : List ℚ) (e : ℚ) :
    ∀ rotation : Vec3,
      updateN rotation KeyboardState.default (es ++ [e]) =
        { rotation with y := e } := by
  induction es with
  | nil =>
    intro rotation
    obtain ⟨rx, ry, rz⟩ := rotation
    simp [updateN, update_rotation_idle]
  | cons e' es ih =>
    intro rotation
    obtain ⟨rx, ry, rz⟩ := rotation
    simpa [updateN, update_rotation_idle] using ih ⟨rx, e', rz⟩

/-- Iterated forward-only ticks subtract `rotation_speed` once per tick. -/
theorem updateN_forward (es : List ℚ) :
    ∀ rotation : Vec3,
      (updateN rotation ⟨true, false, false, false⟩ es).x =
        rotation.x - es.length * rotation_speed := by
  induction es with
  | nil => intro rotation; simp [updateN]
  | cons e es ih =>
    intro rotation
    rw [updateN, ih]
    rw [update_rotation_x_eq]
    simp
    ring

/-- C6: `Transform::identity()` is the transform with zero position,
identity quaternion and unit scale, and its `matrix()` is exactly the 4×4
identity matrix. -/
theorem identity_transform_matrix :
    Transform.identity = ⟨⟨0, 0, 0⟩, ⟨0, 0, 0, 1⟩, ⟨1, 1, 1⟩⟩ ∧
    Transform.identity.matrix = Mat4.identity := by
  refine ⟨rfl, ?_⟩
  simp [Transform.matrix, Transform.identity, Mat4.from_scale_rotation_translation,
    Mat4.quat_to_axes, Quat.IDENTITY, Vec3.zero, Vec3.one, Vec4.smul, Mat4.identity]

/-- C1 counterexample: with only forward held, one update tick starting at
`x = 0` leaves `x = -(2 × 0.016) = -4/125`, which is not the claimed
`-(2/60) = -1/30`. -/
theorem tick_increment_not_claimed_value :
    (Renderer.update_rotation ⟨0, 0, 0⟩ ⟨true, false, false, false⟩ 0).x
      ≠ -(2 / 60) := by
  norm_num [Renderer.update_rotation, rotation_speed]

/-- C1 amended: the per-tick increment is `2.0 × 0.016 = 0.032` radians
(not `2.0 × (1/60)`); each true flag changes its angle by exactly that
amount, additively (forward decreases `x`, back increases `x`, left
decreases `y`, right increases `y`); holding only forward for N ticks
decreases `x` by `N × 0.032`; and `x` is unchanged on any tick where
forward and back are both released. -/
theorem manual_rotation_increments :
    rotation_speed = 2 * (16 / 1000) ∧
    (∀ (rotation : Vec3) (keys : KeyboardState) (elapsed : ℚ),
        (Renderer.update_rotation rotation keys elapsed).x =
          rotation.x - (if keys.w then rotation_speed else 0)
                     + (if keys.s then rotation_speed else 0)) ∧
    (∀ (rotation : Vec3) (keys : KeyboardState) (elapsed : ℚ),
        keys.w = true ∨ keys.a = true ∨ keys.s = true ∨ keys.d = true →
        (Renderer.update_rotation rotation keys elapsed).y =
          rotation.y - (if keys.a then rotation_speed else 0)
                     + (if keys.d then rotation_speed else 0)) ∧
    (∀ (rotation : Vec3) (es : List ℚ),
        (updateN rotation ⟨true, false, false, false⟩ es).x =
          rotation.x - es.length * rotation_speed) ∧
    (∀ (rotation : Vec3) (keys : KeyboardState) (elapsed : ℚ),
        keys.w = false → keys.s = false →
        (Renderer.update_rotation rotation keys elapsed).x = rotation.x) := by
  refine ⟨by norm_num [rotation_speed], update_rotation_x_eq, ?_, ?_, ?_⟩
  · intro rotation keys elapsed h
    exact update_rotation_y_pressed rotation keys elapsed h
  · intro rotation es
    exact updateN_forward es rotation
  · intro rotation keys elapsed hw hs
    rw [update_rotation_x_eq, hw, hs]
    simp

/-- C1 witness: left key held, one tick, `y` moves by the additive formula. -/
theorem manual_rotation_increments_witness :
    ((⟨false, true, false, false⟩ : KeyboardState).w = true ∨
     (⟨false, true, false, false⟩ : KeyboardState).a = true ∨
     (⟨false, true, false, false⟩ : KeyboardState).s = true ∨
     (⟨false, true, false, false⟩ : KeyboardState).d = true) ∧
    (Renderer.update_rotation ⟨1, 2, 3⟩ ⟨false, true, false, false⟩ 9).y =
      2 - rotation_speed + 0 :=
  ⟨Or.inr (Or.inl rfl),
   manual_rotation_increments.2.2.1 ⟨1, 2, 3⟩ ⟨false, true, false, false⟩ 9
     (Or.inr (Or.inl rfl))⟩

/-- C3: the idle override fires exactly when all four flags are false —
in that case the tick equals overwriting `y` with the elapsed seconds,
leaving `x` and `z` untouched; when some flag is true, `y` follows the
accumulation formula independent of the elapsed time; and over a whole run
of idle ticks, `y` ends at the last elapsed sample while `x`, `z` keep
their initial values. -/
theorem idle_override :
    (∀ (rotation : Vec3) (keys : KeyboardState) (elapsed : ℚ),
        keys.w = false → keys.a = false → keys.s = false → keys.d = false →
        Renderer.update_rotation rotation keys elapsed =
          { rotation with y := elapsed }) ∧
    (∀ (rotation : Vec3) (keys : KeyboardState) (elapsed : ℚ),
        keys.w = true ∨ keys.a = true ∨ keys.s = true ∨ keys.d = true →
        (Renderer.update_rotation rotation keys elapsed).y =
          rotation.y - (if keys.a then rotation_speed else 0)
                     + (if keys.d then rotation_speed else 0)) ∧
    (∀ (rotation : Vec3) (es : List ℚ) (e : ℚ),
        updateN rotation KeyboardState.default (es ++ [e]) =
          { rotation with y := e }) := by
  refine ⟨?_, ?_, ?_⟩
  · intro rotation keys elapsed hw ha hs hd
    obtain ⟨w, a, s, d⟩ := keys
    cases hw; cases ha; cases hs; cases hd
    exact update_rotation_idle rotation elapsed
  · intro rotation keys elapsed h
    exact update_rotation_y_pressed rotation keys elapsed h
  · intro rotation es e
    exact updateN_idle es e rotation

/-- C3 witness: one idle tick at elapsed = 7 overwrites `y` with 7. -/
theorem idle_override_witness :
    (KeyboardState.default.w = false ∧ KeyboardState.default.a = false ∧
     KeyboardState.default.s = false ∧ KeyboardState.default.d = false) ∧
    Renderer.update_rotation ⟨1, 2, 3⟩ KeyboardState.default 7 = ⟨1, 7, 3⟩ :=
  ⟨⟨rfl, rfl, rfl, rfl⟩,
   idle_override.1 ⟨1, 2, 3⟩ KeyboardState.default 7 rfl rfl rfl rfl⟩

/-- C10: the idle override never fires while any key is held — `y` follows
the accumulation formula, independent of the elapsed time; in particular
with forward and back held simultaneously their increments cancel exactly
and the whole tick is the identity on the rotation state. -/
theorem no_override_while_key_held :
    (∀ (rotation : Vec3) (keys : KeyboardState) (elapsed : ℚ),
        keys.w = true ∨ keys.a = true ∨ keys.s = true ∨ keys.d = true →
        (Renderer.update_rotation rotation keys elapsed).y =
          rotation.y - (if keys.a then rotation_speed else 0)
                     + (if keys.d then rotation_speed else 0) ∧
        (Renderer.update_rotation rotation keys elapsed).x =
          rotation.x - (if keys.w then rotation_speed else 0)
                     + (if keys.s then rotation_speed else 0) ∧
        (Renderer.update_rotation rotation keys elapsed).z = rotation.z) ∧
    (∀ (rotation : Vec3) (elapsed : ℚ),
        Renderer.update_rotation rotation ⟨true, false, true, false⟩ elapsed =
          rotation) := by
  refine ⟨?_, ?_⟩
  · intro rotation keys elapsed h
    exact ⟨update_rotation_y_pressed rotation keys elapsed h,
           update_rotation_x_eq rotation keys elapsed,
           update_rotation_z_eq rotation keys elapsed⟩
  · intro rotation elapsed
    obtain ⟨rx, ry, rz⟩ := rotation
    simp [Renderer.update_rotation]

/-- C10 witness: with forward and back held, a tick at elapsed = 11 leaves
`y` at its accumulated value instead of 11. -/
theorem no_override_while_key_held_witness :
    ((⟨true, false, true, false⟩ : KeyboardState).w = true ∨
     (⟨true, false, true, false⟩ : KeyboardState).a = true ∨
     (⟨true, false, true, false⟩ : KeyboardState).s = true ∨
     (⟨true, false, true, false⟩ : KeyboardState).d = true) ∧
    (Renderer.update_rotation ⟨4, 5, 6⟩ ⟨true, false, true, false⟩ 11).y =
      5 - 0 + 0 :=
  ⟨Or.inl rfl,
   (no_override_while_key_held.1 ⟨4, 5, 6⟩ ⟨true, false, true, false⟩ 11
     (Or.inl rfl)).1⟩

/-- C9: a keyboard event sets exactly the flag bound to its key (`W` →
forward, `A` → left, `S` → back, `D` → right) to the pressed state,
leaving the other three flags and every other renderer field unchanged;
events for any other key code, or without a physical key code, leave the
entire state unchanged. -/
theorem keyboard_input_single_flag :
    ∀ (self : Renderer) (event : KeyEvent),
      (event.physical_key = PhysicalKey.code KeyCode.keyW →
        Renderer.handle_keyboard_input self event =
          { self with keys_pressed :=
              { self.keys_pressed with w := event.pressed } }) ∧
      (event.physical_key = PhysicalKey.code KeyCode.keyA →
        Renderer.handle_keyboard_input self event =
          { self with keys_pressed :=
              { self.keys_pressed with a := event.pressed } }) ∧
      (event.physical_key = PhysicalKey.code KeyCode.keyS →
        Renderer.handle_keyboard_input self event =
          { self with keys_pressed :=
              { self.keys_pressed with s := event.pressed } }) ∧
      (event.physical_key = PhysicalKey.code KeyCode.keyD →
        Renderer.handle_keyboard_input self event =
          { self with keys_pressed :=
              { self.keys_pressed with d := event.pressed } }) ∧
      (event.physical_key = PhysicalKey.code KeyCode.other →
        Renderer.handle_keyboard_input self event = self) ∧
      (event.physical_key = PhysicalKey.unidentified →
        Renderer.handle_keyboard_input self event = self) := by
  rintro self ⟨pk, pr⟩
  refine ⟨?_, ?_, ?_, ?_, ?_, ?_⟩ <;> rintro rfl <;> rfl

/-- C9 witness: a key-down event for `W` from the initial state sets only
the forward flag. -/
theorem keyboard_input_single_flag_witness :
    (KeyEvent.mk (PhysicalKey.code KeyCode.keyW) true).physical_key =
        PhysicalKey.code KeyCode.keyW ∧
    Renderer.handle_keyboard_input Renderer.init
        (KeyEvent.mk (PhysicalKey.code KeyCode.keyW) true) =
      { Renderer.init with keys_pressed := ⟨true, false, false, false⟩ } :=
  ⟨rfl,
   (keyboard_input_single_flag Renderer.init
     (KeyEvent.mk (PhysicalKey.code KeyCode.keyW) true)).1 rfl⟩

/-- C2 counterexample: with a zero-height surface the frame is not skipped —
`update_and_render` still executes the rotation update (here the idle
override writes `y := 1`), so the renderer state changes. -/
theorem zero_height_frame_not_skipped :
    (Renderer.update_and_render TrigOps.dummy Renderer.init 1 800 0).1 ≠
      Renderer.init := by
  intro h
  have hy := congrArg (fun r => r.cube_rotation.y) h
  simp [Renderer.update_and_render, Renderer.init, Renderer.update_rotation,
    KeyboardState.default, Vec3.zero] at hy

/-- C2 amended: `resize` is a no-op when either dimension is zero, leaving
the surface configuration unchanged, and reconfigures to the new size
otherwise; but `update_and_render` has no zero-area guard — the rotation
update (and the subsequent publish) executes for any surface size,
including height 0. -/
theorem resize_guard_and_unconditional_update :
    (∀ (config : SurfaceConfiguration) (w h : ℕ),
        w = 0 ∨ h = 0 → Renderer.resize config w h = config) ∧
    (∀ (config : SurfaceConfiguration) (w h : ℕ),
        w ≠ 0 → h ≠ 0 → Renderer.resize config w h = ⟨w, h⟩) ∧
    (∀ (ops : TrigOps) (self : Renderer) (elapsed : ℚ) (w : ℕ),
        (Renderer.update_and_render ops self elapsed w 0).1.cube_rotation =
          Renderer.update_rotation self.cube_rotation self.keys_pressed
            elapsed) := by
  refine ⟨?_, ?_, ?_⟩
  · intro config w h h0
    rcases h0 with h0 | h0 <;> subst h0 <;> simp [Renderer.resize]
  · intro config w h hw hh
    simp [Renderer.resize, hw, hh]
  · intro ops self elapsed w
    rfl

/-- C2 witness: a resize to 0 × 360 leaves a 640 × 480 configuration
untouched. -/
theorem resize_guard_and_unconditional_update_witness :
    ((0 : ℕ) = 0 ∨ (360 : ℕ) = 0) ∧
    Renderer.resize ⟨640, 480⟩ 0 360 = ⟨640, 480⟩ :=
  ⟨Or.inl rfl,
   resize_guard_and_unconditional_update.1 ⟨640, 480⟩ 0 360 (Or.inl rfl)⟩

/-- A successful `find?` yields the element at the first index satisfying
the predicate: all earlier indices fail it. -/
theorem find?_first_index {α : Type} {p : α → Bool} :
    ∀ (l : List α) (o : α), l.find? p = some o →
      ∃ i : ℕ, ∃ hi : i < l.length,
        l.get ⟨i, hi⟩ = o ∧ p o = true ∧
        ∀ j (hj : j < l.length), j < i → p (l.get ⟨j, hj⟩) = false
  | [], o, h => by simp [List.find?] at h
  | x :: xs, o, h => by
    by_cases hx : p x
    · rw [List.find?_cons_of_pos _ hx] at h
      obtain rfl := Option.some.inj h
      exact ⟨0, Nat.succ_pos _, rfl, hx,
        fun j hj hj0 => absurd hj0 (Nat.not_lt_zero j)⟩
    · rw [List.find?_cons_of_neg _ hx] at h
      obtain ⟨i, hi, hget, hpo, hfirst⟩ := find?_first_index xs o h
      refine ⟨i + 1, Nat.succ_lt_succ hi, hget, hpo, ?_⟩
      intro j hj hji
      cases j with
      | zero => simpa using hx
      | succ j' =>
        have hj' : j' < xs.length := Nat.lt_of_succ_lt_succ hj
        simpa using hfirst j' hj' (Nat.lt_of_succ_lt_succ hji)

/-- The element `find?` returns is the one at the index `findIdx?` returns:
the immutable and mutable scans select the same position. -/
theorem find?_eq_findIdx?_bind {α : Type} (p : α → Bool) :
    ∀ l : List α, l.find? p = (l.findIdx? p).bind (fun i => l[i]?)
  | [] => rfl
  | x :: xs => by
    by_cases hx : p x
    · simp [List.find?_cons_of_pos _ hx, List.findIdx?_cons, hx]
    · simp only [List.find?_cons_of_neg _ hx, List.findIdx?_cons, hx,
        if_false, List.findIdx?_succ, find?_eq_findIdx?_bind p xs]
      cases xs.findIdx? p with
      | none => rfl
      | some i => simp

/-- Overwriting the transform of the first `name` match is visible to a
subsequent `find?` with the same predicate. -/
theorem find?_setFirstTransform (name : String) (t : Transform) :
    ∀ (l : List SceneObject) (o : SceneObject),
      l.find? (fun obj => obj.name == name) = some o →
      (setFirstTransform name t l).find? (fun obj => obj.name == name) =
        some { o with transform := t }
  | [], o, h => by simp [List.find?] at h
  | x :: xs, o, h => by
    by_cases hx : (x.name == name) = true
    · have hcons : List.find? (fun obj => obj.name == name) (x :: xs) = some x :=
        List.find?_cons_of_pos xs hx
      rw [hcons] at h
      obtain rfl := Option.some.inj h
      simp only [setFirstTransform]
      rw [if_pos hx]
      exact List.find?_cons_of_pos xs hx
    · have hcons : List.find? (fun obj => obj.name == name) (x :: xs) =
          List.find? (fun obj => obj.name == name) xs :=
        List.find?_cons_of_neg xs hx
      rw [hcons] at h
      have ih := find?_setFirstTransform name t xs o h
      simp only [setFirstTransform]
      rw [if_neg hx]
      have hcons2 : List.find? (fun obj => obj.name == name)
            (x :: setFirstTransform name t xs) =
          List.find? (fun obj => obj.name == name) (setFirstTransform name t xs) :=
        List.find?_cons_of_neg _ hx
      rw [hcons2]
      exact ih

/-- C7: `get_object` returns the first object in insertion order whose name
equals the given string exactly, and `none` exactly when no object has that
name; on the scene with objects named `A`, `B`, `A`, it returns the object
at index 0, which differs from the third object. -/
theorem get_object_first_match :
    (∀ (scene : Scene) (name : String),
        (scene.get_object name = none ↔
          ∀ obj ∈ scene.objects, obj.name ≠ name)) ∧
    (∀ (scene : Scene) (name : String) (obj : SceneObject),
        scene.get_object name = some obj →
        ∃ i : ℕ, ∃ hi : i < scene.objects.length,
          scene.objects.get ⟨i, hi⟩ = obj ∧ obj.name = name ∧
          ∀ j (hj : j < scene.objects.length), j < i →
            (scene.objects.get ⟨j, hj⟩).name ≠ name) ∧
    sceneABA.get_object "A" = some objA ∧
    sceneABA.objects[0]? = some objA ∧
    objA ≠ objA2 := by
  refine ⟨?_, ?_, rfl, rfl, ?_⟩
  · intro scene name
    simp [Scene.get_object, List.find?_eq_none]
  · intro scene name obj h
    obtain ⟨i, hi, hget, hpo, hfirst⟩ :=
      find?_first_index scene.objects obj h
    refine ⟨i, hi, hget, by simpa using hpo, ?_⟩
    intro j hj hji
    simpa using hfirst j hj hji
  · intro h
    have h5 := congrArg (fun o => o.transform.position.x) h
    norm_num [objA, objA2, SceneObject.new, Transform.new, Transform.identity,
      Vec3.zero] at h5

/-- C7 witness: on the `A`, `B`, `A` scene, the lookup for `A` succeeds and
the returned object sits at an index before which no name matches. -/
theorem get_object_first_match_witness :
    sceneABA.get_object "A" = some objA ∧
    (∃ i : ℕ, ∃ hi : i < sceneABA.objects.length,
      sceneABA.objects.get ⟨i, hi⟩ = objA ∧ objA.name = "A" ∧
      ∀ j (hj : j < sceneABA.objects.length), j < i →
        (sceneABA.objects.get ⟨j, hj⟩).name ≠ "A") :=
  ⟨rfl, get_object_first_match.2.1 sceneABA "A" objA rfl⟩

/-- C8: `get_object` and `get_object_mut` select the same index for the same
name — `find?` returns exactly the element at the `findIdx?` position — so a
transform written through the mutable lookup is visible through a subsequent
`get_object`; concretely, on the `A`, `B`, `C` scene the lookup for `B`
yields the second object, and after mutating it the new transform is
observed. -/
theorem get_object_mut_consistent :
    (∀ (scene : Scene) (name : String),
        scene.get_object name =
          (scene.get_object_mut_index name).bind
            (fun i => scene.objects[i]?)) ∧
    (∀ (scene : Scene) (name : String) (t : Transform) (obj : SceneObject),
        scene.get_object name = some obj →
        (scene.set_transform_via_mut name t).get_object name =
          some { obj with transform := t }) ∧
    sceneABC.get_object "B" = some objB ∧
    sceneABC.objects[1]? = some objB ∧
    (sceneABC.set_transform_via_mut "B" movedTransform).get_object "B" =
      some { objB with transform := movedTransform } := by
  refine ⟨?_, ?_, rfl, rfl, rfl⟩
  · intro scene name
    exact find?_eq_findIdx?_bind _ scene.objects
  · intro scene name t obj h
    exact find?_setFirstTransform name t scene.objects obj h

/-- C8 witness: mutation through the mutable lookup on the `A`, `B`, `C`
scene is visible through `get_object`. -/
theorem get_object_mut_consistent_witness :
    sceneABC.get_object "B" = some objB ∧
    (sceneABC.set_transform_via_mut "B" movedTransform).get_object "B" =
      some { objB with transform := movedTransform } :=
  ⟨rfl, get_object_mut_consistent.2.1 sceneABC "B" movedTransform objB rfl⟩

/-- C5: `Transform::matrix()` is exactly the product
`Translate(position) · Rotate(rotation) · Scale(scale)` (scale applied
first to a model-space point), and for position `(1,2,3)`, scale `(2,2,2)`
and any quaternion `(0, s, 0, c)` approximating the 90° rotation about Y
(so that `2s² ≈ 1` and `2cs ≈ 1` within `5·10⁻⁶`), the matrix maps the
point `(1,0,0)` to `(1,2,1)` within tolerance `10⁻⁵` per component. -/
theorem transform_matrix_trs :
    (∀ t : Transform,
        t.matrix = (Mat4.from_translation t.position).mul
          ((Mat4.from_quat t.rotation).mul (Mat4.from_scale t.scale))) ∧
    (∀ s c : ℚ,
        |1 - 2 * s ^ 2| ≤ 1 / 200000 → |1 - 2 * (c * s)| ≤ 1 / 200000 →
        |(trsPoint s c).x - 1| ≤ 1 / 100000 ∧
        |(trsPoint s c).y - 2| ≤ 1 / 100000 ∧
        |(trsPoint s c).z - 1| ≤ 1 / 100000) := by
  constructor
  · intro t
    obtain ⟨⟨px, py, pz⟩, ⟨qx, qy, qz, qw⟩, ⟨sx, sy, sz⟩⟩ := t
    simp only [Transform.matrix, Mat4.from_scale_rotation_translation,
      Mat4.quat_to_axes, Mat4.from_translation, Mat4.from_quat,
      Mat4.from_scale, Mat4.mul, Mat4.mulVec4, Vec4.smul, Vec4.add,
      Mat4.mk.injEq, Vec4.mk.injEq]
    norm_num
  · intro s c h1 h2
    have hx : (trsPoint s c).x - 1 = 2 * (1 - 2 * s ^ 2) := by
      simp [trsPoint, Transform.new, Transform.matrix,
        Mat4.from_scale_rotation_translation, Mat4.quat_to_axes,
        Mat4.mulVec4, Vec4.smul, Vec4.add]
      ring
    have hy : (trsPoint s c).y - 2 = 0 := by
      simp [trsPoint, Transform.new, Transform.matrix,
        Mat4.from_scale_rotation_translation, Mat4.quat_to_axes,
        Mat4.mulVec4, Vec4.smul, Vec4.add]
    have hz : (trsPoint s c).z - 1 = 2 * (1 - 2 * (c * s)) := by
      simp [trsPoint, Transform.new, Transform.matrix,
        Mat4.from_scale_rotation_translation, Mat4.quat_to_axes,
        Mat4.mulVec4, Vec4.smul, Vec4.add]
      ring
    refine ⟨?_, ?_, ?_⟩
    · rw [hx]
      calc |2 * (1 - 2 * s ^ 2)| = 2 * |1 - 2 * s ^ 2| := by
            rw [abs_mul]; norm_num
        _ ≤ 2 * (1 / 200000) := by
            exact mul_le_mul_of_nonneg_left h1 (by norm_num)
        _ = 1 / 100000 := by norm_num
    · rw [hy]
      norm_num
    · rw [hz]
      calc |2 * (1 - 2 * (c * s))| = 2 * |1 - 2 * (c * s)| := by
            rw [abs_mul]; norm_num
        _ ≤ 2 * (1 / 200000) := by
            exact mul_le_mul_of_nonneg_left h2 (by norm_num)
        _ = 1 / 100000 := by norm_num

/-- C5 witness: with `s = c = 0.7071068` (the f32-precision sine and cosine
of 45°), the hypotheses hold and the transformed point is within `10⁻⁵`
of `(1,2,1)`. -/
theorem transform_matrix_trs_witness :
    |1 - 2 * (0.7071068 : ℚ) ^ 2| ≤ 1 / 200000 ∧
    |1 - 2 * ((0.7071068 : ℚ) * 0.7071068)| ≤ 1 / 200000 ∧
    (|(trsPoint 0.7071068 0.7071068).x - 1| ≤ 1 / 100000 ∧
     |(trsPoint 0.7071068 0.7071068).y - 2| ≤ 1 / 100000 ∧
     |(trsPoint 0.7071068 0.7071068).z - 1| ≤ 1 / 100000) := by
  refine ⟨?_, ?_, ?_⟩
  · rw [abs_le]; constructor <;> norm_num
  · rw [abs_le]; constructor <;> norm_num
  · exact transform_matrix_trs.2 0.7071068 0.7071068
      (by rw [abs_le]; constructor <;> norm_num)
      (by rw [abs_le]; constructor <;> norm_num)

/-- C4: every frame publishes to the uniform buffer exactly the column-major
array of `Projection · View · Model`, where `Model` is
`RotateX(x) · RotateY(y) · RotateZ(z)` built from the post-update rotation
state, `View` is the right-handed look-at matrix from the camera position
toward the origin with up `+Y`, and `Projection` is the right-handed
perspective matrix with vertical fov 45° (in radians), aspect
`width / height`, near `0.1`, far `100`; the camera position starts at
`(0,0,3)` and no operation ever changes it, and the published array
determines the matrix uniquely. -/
theorem mvp_published_composition :
    (∀ (ops : TrigOps) (self : Renderer) (elapsed : ℚ) (width height : ℕ),
        (Renderer.update_and_render ops self elapsed width height).2 =
          Uniforms.mk
            (((Mat4.perspective_rh_gl ops (to_radians ops 45)
                  ((width : ℚ) / (height : ℚ)) 0.1 100).mul
                (Mat4.look_at_rh ops self.camera_position Vec3.zero
                  Vec3.unitY)).mul
              (((Mat4.from_rotation_x ops
                    (Renderer.update_rotation self.cube_rotation
                      self.keys_pressed elapsed).x).mul
                  (Mat4.from_rotation_y ops
                    (Renderer.update_rotation self.cube_rotation
                      self.keys_pressed elapsed).y)).mul
                (Mat4.from_rotation_z ops
                  (Renderer.update_rotation self.cube_rotation
                    self.keys_pressed elapsed).z))).to_cols_array_2d) ∧
    Renderer.init.camera_position = ⟨0, 0, 3⟩ ∧
    (∀ (ops : TrigOps) (self : Renderer) (elapsed : ℚ) (width height : ℕ),
        (Renderer.update_and_render ops self elapsed
            width height).1.camera_position = self.camera_position) ∧
    (∀ (self : Renderer) (event : KeyEvent),
        (Renderer.handle_keyboard_input self event).camera_position =
          self.camera_position) ∧
    (∀ m mm : Mat4, m.to_cols_array_2d = mm.to_cols_array_2d → m = mm) := by
  refine ⟨fun ops self elapsed width height => rfl, rfl,
    fun ops self elapsed width height => rfl, ?_, ?_⟩
  · intro self event
    obtain ⟨pk, pr⟩ := event
    cases pk with
    | code k => cases k <;> rfl
    | unidentified => rfl
  · intro m mm h
    obtain ⟨⟨a1, a2, a3, a4⟩, ⟨b1, b2, b3, b4⟩, ⟨c1, c2, c3, c4⟩,
      ⟨d1, d2, d3, d4⟩⟩ := m
    obtain ⟨⟨e1, e2, e3, e4⟩, ⟨f1, f2, f3, f4⟩, ⟨g1, g2, g3, g4⟩,
      ⟨k1, k2, k3, k4⟩⟩ := mm
    simp only [Mat4.to_cols_array_2d, Vec4.toList, List.cons.injEq,
      and_true] at h
    simp only [Mat4.mk.injEq, Vec4.mk.injEq]
    tauto

/-- C4 witness for the injectivity conjunct, applied at the identity matrix. -/
theorem mvp_published_composition_witness :
    Mat4.identity.to_cols_array_2d = Mat4.identity.to_cols_array_2d ∧
    Mat4.identity = Mat4.identity :=
  ⟨rfl, mvp_published_composition.2.2.2.2 Mat4.identity Mat4.identity rfl⟩

end IntSar3D
